import Mathlib

/-!
Verification of the catalyst-proximity screening and IV-analytics engine.

This file is a shallow embedding, in Lean 4, of the Python modules

  * `openbb_core/provider/utils/catalyst_screener.py`
  * `openbb_core/provider/utils/iv_analytics.py`
  * `openbb_core/provider/utils/options_research.py`
  * `openbb_nih/models/clinical_trials.py` (the `transform_data` step)
  * `openbb_derivatives/options/options_router.py` (the `surface` and
    `catalyst_screen` entry points)

Modelling conventions:

  * Python floats are modelled as exact rationals (`ℚ`); the one place the
    code takes a real square root (`calculate_expected_move` and the
    expected-move percentage inside `catalyst_screen`) is modelled over `ℝ`
    with `Real.sqrt`.
  * Python's `round(x, n)` (round-half-to-even) is modelled by `pyRound`.
  * Calendar dates are modelled as proleptic-Gregorian day numbers (`ℤ`),
    exactly the quantity `datetime.date` subtraction exposes; `toDayNumber`
    is the standard civil-from-days algorithm.  `parse_date_strict` models
    `datetime.strptime(s, "%Y-%m-%d")` (whole string), `parse_date10`
    models the pervasive `strptime(str(x)[:10], "%Y-%m-%d")` idiom.
  * A pandas chain `DataFrame` is modelled as a `List ChainRow` with the
    columns the data model guarantees (`strike`, `expiration`,
    `option_type`, `implied_volatility`, optionally `underlying_price`);
    the `if "col" in df.columns` guards of the source are therefore always
    taken.  Row filters become `List.filter`, `reset_index` is the
    identity on lists, stable `sort` / `sort_values` become the stable
    `stableSort` below.
  * Exceptions raised at entry points become `Except.error` with the
    source's message; internal functions that can never raise are total
    functions into `List`/`Option`.
  * Wall-clock `date.today()` is passed in explicitly as a `today`
    parameter.
-/

/-! ## Python-style rounding (round-half-to-even), generic over an ordered field -/

section Rounding

variable {α : Type} [LinearOrderedField α] [FloorRing α]

/-- Python's built-in `round` to an integer: round half to even. -/
def pyRound (x : α) : ℤ :=
  if Int.fract x = 1/2 then (if 2 ∣ ⌊x⌋ then ⌊x⌋ else ⌊x⌋ + 1) else round x

/-- Python's `round(x, 1)`. -/
def pyRound1 (x : α) : α := (pyRound (x * 10) : α) / 10

/-- Python's `round(x, 2)`. -/
def pyRound2 (x : α) : α := (pyRound (x * 100) : α) / 100

/-- Python's `round(x, 4)`. -/
def pyRound4 (x : α) : α := (pyRound (x * 10000) : α) / 10000

end Rounding

/-! ## Calendar dates as proleptic-Gregorian day numbers -/

/-- Gregorian leap-year rule, as implemented by `datetime.date`. -/
def isLeapYear (y : ℤ) : Bool := (y % 4 = 0 ∧ y % 100 ≠ 0) ∨ y % 400 = 0

/-- Number of days in month `m` of year `y`. -/
def daysInMonth (y m : ℤ) : ℤ :=
  if m = 2 then (if isLeapYear y then 29 else 28)
  else if m = 4 ∨ m = 6 ∨ m = 9 ∨ m = 11 then 30
  else 31

/-- Validity of a `datetime.date(y, m, d)` triple (years 1..9999). -/
def dateValid (y m d : ℤ) : Bool :=
  1 ≤ y ∧ y ≤ 9999 ∧ 1 ≤ m ∧ m ≤ 12 ∧ 1 ≤ d ∧ d ≤ daysInMonth y m

/-- Day number of a civil date (days-from-civil algorithm); differences of
day numbers agree with `datetime.date` subtraction. Only evaluated on
valid dates, where `y ≥ 1` keeps every integer division nonnegative. -/
def toDayNumber (y m d : ℤ) : ℤ :=
  let y2 : ℤ := if m ≤ 2 then y - 1 else y
  let era : ℤ := y2 / 400
  let yoe : ℤ := y2 - era * 400
  let mp : ℤ := if 2 < m then m - 3 else m + 9
  let doy : ℤ := (153 * mp + 2) / 5 + d - 1
  let doe : ℤ := yoe * 365 + yoe / 4 - yoe / 100 + doy
  era * 146097 + doe - 719468

/-- `str.split("-")` on a character list (Python `"%Y-%m-%d"` tokenizing). -/
def splitDash (cs : List Char) : List (List Char) :=
  cs.foldr (fun c acc =>
    match acc with
    | [] => if c = '-' then [[], []] else [[c]]
    | g :: gs => if c = '-' then [] :: g :: gs else (c :: g) :: gs) [[]]

/-- Value of a nonempty all-digit character run, `none` otherwise. -/
def digitsVal (cs : List Char) : Option ℕ :=
  if cs ≠ [] ∧ cs.all (fun c => c.isDigit) then
    some (cs.foldl (fun n c => 10 * n + (c.toNat - 48)) 0)
  else none

/-- Python `s[:10]` (slicing by code points). -/
def pyTake10 (s : String) : String := String.mk (s.toList.take 10)

/-- `datetime.strptime(s, "%Y-%m-%d").date()` on the whole string: three
dash-separated digit runs (year up to 4 digits, month/day up to 2), which
must form a valid date.  Returns the day number, or `none` on failure
(modelling the raised `ValueError`). -/
def parse_date_strict (s : String) : Option ℤ :=
  match splitDash s.toList with
  | [ys, ms, ds] =>
    if ys.length ≤ 4 ∧ ms.length ≤ 2 ∧ ds.length ≤ 2 then
      match digitsVal ys, digitsVal ms, digitsVal ds with
      | some y, some m, some d =>
        if dateValid y m d then some (toDayNumber y m d) else none
      | _, _, _ => none
    else none
  | _ => none

/-- The pervasive lenient idiom `strptime(str(x)[:10], "%Y-%m-%d")`:
truncate to ten characters, then strict parse. -/
def parse_date10 (s : String) : Option ℤ := parse_date_strict (pyTake10 s)

/-- `datetime.date.max = 9999-12-31`, the sentinel used as a sort key for
absent dates in the clinical-trials adapter. -/
def pyDateMax : ℤ := toDayNumber 9999 12 31

/-! ## Stable sorting

Python's `list.sort` / pandas `sort_values` are stable sorts.  A stable
sort's output is uniquely determined by the key order, so the
structurally-recursive stable insertion sort below computes exactly the
list Python produces. -/

/-- Insert `a` before the first element `b` with `le a b` (so an element
arriving from earlier in the input stays before equal keys). -/
def insertAt {α : Type} (le : α → α → Bool) (a : α) : List α → List α
  | [] => [a]
  | b :: bs => if le a b then a :: b :: bs else b :: insertAt le a bs

/-- Stable insertion sort. -/
def stableSort {α : Type} (le : α → α → Bool) : List α → List α
  | [] => []
  | a :: as => insertAt le a (stableSort le as)

/-! ## Option-chain rows -/

/-- The `option_type` column: `"call"` or `"put"`. -/
inductive OType where
  | call : OType
  | put : OType
deriving DecidableEq, Repr

/-- One row of an options-chain `DataFrame`, with the columns the data
model guarantees.  `underlying_price` is the optional per-row column the
routers fall back to. -/
structure ChainRow where
  strike : ℚ
  expiration : String
  option_type : OType
  implied_volatility : ℚ
  underlying_price : Option ℚ
deriving DecidableEq, Repr

/-! ## catalyst_screener.py -/

/-- `filter_by_catalyst_proximity`: keep expirations whose parsed date is
within `[-days_before, days_after]` days of the catalyst; unparseable
strings are skipped (the `except: continue`). -/
def filter_by_catalyst_proximity (options_expirations : List String)
    (catalyst_date : ℤ) (days_before : ℤ) (days_after : ℤ) : List String :=
  options_expirations.filter (fun exp_str =>
    match parse_date10 exp_str with
    | some d => decide (-days_before ≤ d - catalyst_date ∧ d - catalyst_date ≤ days_after)
    | none => false)

/-- `find_nearest_post_catalyst_expiration`: among expirations parsing to a
date `min_days_after ≤ diff ≤ max_days_after` past the catalyst, stable-sort
by the day difference and return the first; `none` if empty. -/
def find_nearest_post_catalyst_expiration (options_expirations : List String)
    (catalyst_date : ℤ) (min_days_after : ℤ) (max_days_after : ℤ) : Option String :=
  let valid := options_expirations.filterMap (fun exp_str =>
    (parse_date10 exp_str).bind (fun d =>
      if min_days_after ≤ d - catalyst_date ∧ d - catalyst_date ≤ max_days_after then
        some (exp_str, d - catalyst_date)
      else none))
  ((stableSort (fun a b => a.2 ≤ b.2) valid).head?).map (fun p => p.1)

/-- `df["_exp_date"].min()` over the parsed expirations: `foldl`-style
minimum of a list of day numbers, `none` on the empty list. -/
def minDate : List ℤ → Option ℤ :=
  fun l => l.foldl (fun acc d =>
    match acc with
    | none => some d
    | some a => some (min a d)) none

/-- The IV normalization used in `screen_options_before_earnings`'s min-IV
filter: `x / 100 if x > 10 else x` (strict threshold; raw 10 unchanged). -/
def normalize_iv_screen (x : ℚ) : ℚ := if 10 < x then x / 100 else x

/-- The post-earnings expiration test of `screen_options_before_earnings`:
the parsed expiration lies strictly after the earnings date; rows whose
expiration fails to parse compare false and drop out. -/
def post_earnings_filter (earnings_date : ℤ) (r : ChainRow) : Bool :=
  match parse_date10 r.expiration with
  | some d => decide (earnings_date < d)
  | none => false

/-- Stages 2-4 of `screen_options_before_earnings` (source lines 174-203),
applied to the rows already restricted to post-earnings expirations:
keep only the earliest such expiration, then strikes within
`max_strike_distance_pct` of the price, then the optional normalized-IV
floor, then the optional option-type filter, with the source's emptiness
guards. -/
def screen_after_expiration (afterE : List ChainRow) (underlying_price : ℚ)
    (min_iv : Option ℚ) (max_strike_distance_pct : ℚ)
    (option_type : Option OType) : List ChainRow :=
  let df1 := match minDate (afterE.filterMap (fun r => parse_date10 r.expiration)) with
    | none => afterE
    | some first_exp => afterE.filter (fun r => parse_date10 r.expiration = some first_exp)
  if df1 = [] then [] else
  let df2 := df1.filter (fun r =>
    |r.strike - underlying_price| / underlying_price * 100 ≤ max_strike_distance_pct)
  if df2 = [] then [] else
  let df3 := match min_iv with
    | some m => df2.filter (fun r => m ≤ normalize_iv_screen r.implied_volatility)
    | none => df2
  match option_type with
  | some t => df3.filter (fun r => r.option_type = t)
  | none => df3

/-- `screen_options_before_earnings`, the four-stage pipeline:
restrict to the single earliest expiration strictly after `earnings_date`
(unparseable expirations compare false and drop out), then to strikes
within `max_strike_distance_pct` of the price, then the optional
normalized-IV floor, then the optional option-type filter. -/
def screen_options_before_earnings (options_df : List ChainRow)
    (earnings_date : ℤ) (underlying_price : ℚ) (min_iv : Option ℚ)
    (max_strike_distance_pct : ℚ) (option_type : Option OType) : List ChainRow :=
  if options_df = [] then [] else
  screen_after_expiration (options_df.filter (post_earnings_filter earnings_date))
    underlying_price min_iv max_strike_distance_pct option_type

/-- `score_catalyst_play`'s time-alignment component (an integer score). -/
def time_alignment (days_to_catalyst days_to_expiration : ℤ) : ℤ :=
  let days_after_catalyst := days_to_expiration - days_to_catalyst
  if days_after_catalyst < 0 then max 0 (50 + days_after_catalyst * 10)
  else if days_after_catalyst ≤ 3 then 100
  else if days_after_catalyst ≤ 7 then 80
  else max 30 (80 - (days_after_catalyst - 7) * 5)

section Scoring

variable {α : Type} [LinearOrderedField α] [FloorRing α]

/-- `score_catalyst_play`'s expected-move component (right-open bins). -/
def move_score (expected_move_pct : α) : ℤ :=
  if expected_move_pct < 2 then 20
  else if expected_move_pct < 5 then 50
  else if expected_move_pct < 10 then 80
  else 100

/-- The unrounded weighted composite `iv*0.4 + time*0.35 + move*0.25`. -/
def composite_raw (expected_move_pct iv_rank : α) (days_to_catalyst days_to_expiration : ℤ) : α :=
  iv_rank * (4/10) + (time_alignment days_to_catalyst days_to_expiration : α) * (35/100)
    + (move_score expected_move_pct : α) * (25/100)

/-- `_get_recommendation(score, iv_rank)`; `score` is the unrounded
composite, exactly as the source passes it. -/
def get_recommendation (score iv_rank : α) : String :=
  if 80 ≤ score ∧ 70 ≤ iv_rank then "Strong sell premium candidate (high IV, good timing)"
  else if 80 ≤ score ∧ iv_rank < 30 then "Strong buy premium candidate (low IV, good timing)"
  else if 60 ≤ score then "Moderate opportunity (consider position sizing)"
  else if 40 ≤ score then "Weak setup (proceed with caution)"
  else "Poor setup (consider waiting for better entry)"

/-- The result dictionary of `score_catalyst_play`. -/
structure ScoreResult (α : Type) where
  composite_score : α
  iv_rank_score : α
  time_alignment_score : α
  expected_move_score : α
  recommendation : String
deriving Repr

/-- `score_catalyst_play`: component scores, composite rounded to one
decimal, and the recommendation computed from the unrounded composite. -/
def score_catalyst_play (expected_move_pct iv_rank : α)
    (days_to_catalyst days_to_expiration : ℤ) : ScoreResult α :=
  let c := composite_raw expected_move_pct iv_rank days_to_catalyst days_to_expiration
  ⟨pyRound1 c, pyRound1 iv_rank,
    pyRound1 (time_alignment days_to_catalyst days_to_expiration : α),
    pyRound1 (move_score expected_move_pct : α),
    get_recommendation c iv_rank⟩

end Scoring

/-! ## iv_analytics.py -/

/-- `calculate_iv_percentile`: share of historical IVs strictly below the
current one, as a percentage rounded to 2 decimals; empty history gives
the neutral `50.0`. -/
def calculate_iv_percentile (current_iv : ℚ) (historical_ivs : List ℚ) : ℚ :=
  if historical_ivs = [] then 50
  else
    let days_lower : ℕ := historical_ivs.countP (fun iv => iv < current_iv)
    pyRound2 ((days_lower : ℚ) / (historical_ivs.length : ℚ) * 100)

/-- `calculate_expected_move`: square-root-of-time scaling of the IV, with
the dollar move, the percent and both range bounds each rounded to two
decimals.  Modelled over `ℝ` because of `math.sqrt`. -/
noncomputable def calculate_expected_move (underlying_price iv : ℝ)
    (days_to_expiration : ℤ) (annualization_factor : ℤ) : ℝ × ℝ × (ℝ × ℝ) :=
  let time_factor := Real.sqrt ((days_to_expiration : ℝ) / (annualization_factor : ℝ))
  let expected_move := underlying_price * iv * time_factor
  let expected_move_percent := iv * time_factor * 100
  let lower_bound := underlying_price - expected_move
  let upper_bound := underlying_price + expected_move
  (pyRound2 expected_move, pyRound2 expected_move_percent,
    (pyRound2 lower_bound, pyRound2 upper_bound))

/-- First row of a chain attaining the minimal value of `f` (pandas
`idxmin`: first occurrence of the minimum wins). -/
def firstMinBy (f : ChainRow → ℚ) (l : List ChainRow) : Option ChainRow :=
  l.foldl (fun acc r =>
    match acc with
    | none => some r
    | some a => if f r < f a then some r else some a) none

/-- `get_atm_iv`: optionally restrict to one expiration (an empty string is
falsy, hence no restriction), find the strike nearest the underlying
price, and average the first call IV and first put IV found at that
strike.  The source's fallback branch (no `option_type` column) is dead
here because the column is always present. -/
def get_atm_iv (options_df : List ChainRow) (underlying_price : ℚ)
    (expiration : Option String) : Option ℚ :=
  if options_df = [] then none else
  let df := match expiration with
    | some e => if e = "" then options_df
        else options_df.filter (fun r => pyTake10 r.expiration = e)
    | none => options_df
  if df = [] then none else
  match firstMinBy (fun r => |r.strike - underlying_price|) df with
  | none => none
  | some atmRow =>
    let atm_options := df.filter (fun r => r.strike = atmRow.strike)
    let call_iv := (atm_options.filter (fun r => r.option_type = OType.call)).head?
    let put_iv := (atm_options.filter (fun r => r.option_type = OType.put)).head?
    let ivs := (call_iv.toList ++ put_iv.toList).map (fun r => r.implied_volatility)
    if ivs ≠ [] then some (ivs.sum / (ivs.length : ℚ))
    else (atm_options.head?).map (fun r => r.implied_volatility)

/-- One row of the `iv_term_structure` output frame. -/
structure TermStructureEntry where
  expiration : String
  atm_iv : ℚ
deriving DecidableEq, Repr

/-- `pandas.Series.unique`: distinct values in order of first occurrence. -/
def uniqueFirst (l : List String) : List String :=
  l.foldl (fun acc e => if e ∈ acc then acc else acc ++ [e]) []

/-- `iv_term_structure`: one ATM-IV sample per distinct expiration, the IV
normalized by `round(iv, 4) if iv < 10 else round(iv / 100, 4)` (note: a
raw value of exactly 10 falls in the divide branch), stable-sorted by
expiration text. -/
def iv_term_structure (options_df : List ChainRow) (underlying_price : ℚ) :
    List TermStructureEntry :=
  if options_df = [] then [] else
  let expirations := uniqueFirst (options_df.map (fun r => r.expiration))
  let term_structure := expirations.filterMap (fun exp =>
    let exp_str := pyTake10 exp
    (get_atm_iv options_df underlying_price (some exp_str)).map (fun iv =>
      TermStructureEntry.mk exp_str
        (if iv < 10 then pyRound4 iv else pyRound4 (iv / 100))))
  stableSort (fun a b => a.expiration ≤ b.expiration) term_structure

/-! ## options_research.py -/

/-- `_classify_iv_environment`'s threshold ladder on the chosen metric. -/
def classify_metric (m : ℚ) : String :=
  if 80 ≤ m then "very_high"
  else if 60 ≤ m then "elevated"
  else if 40 ≤ m then "neutral"
  else if 20 ≤ m then "low"
  else "very_low"

/-- `_classify_iv_environment`: IV rank is primary, percentile the
fallback, `"unknown"` when both are absent. -/
def _classify_iv_environment (iv_rank iv_percentile : Option ℚ) : String :=
  match iv_rank, iv_percentile with
  | none, none => "unknown"
  | some r, _ => classify_metric r
  | none, some p => classify_metric p

/-- The IV normalization on line 82 of `options_research.py`:
`atm_iv if atm_iv < 10 else atm_iv / 100` (a raw value of exactly 10 falls
in the divide branch). -/
def research_normalized_iv (atm_iv : ℚ) : ℚ := if atm_iv < 10 then atm_iv else atm_iv / 100

/-- A clinical-trial input record as consumed by `build_research_summary`
(`trial.get(...)` on a dict; `none` models an absent key). -/
structure TrialInput where
  primary_completion_date : Option String
  brief_title : Option String
  title : Option String
  phase : Option String
  nct_id : Option String
deriving Repr

/-- One catalyst record assembled by `build_research_summary`. -/
structure CatalystRec where
  ctype : String
  cdate : ℤ
  days_until : ℤ
  name : Option String
  phase : Option String
  nct_id : Option String
  relevant_expirations : List String
  nearest_post_expiration : Option String
deriving Repr

/-- The parts of the research summary the claims are about.
`expected_move_inputs` records the normalized IV and the fixed horizons the
source feeds to `calculate_expected_move` (the `ℝ`-valued move figures
themselves live outside the computable structure); `none` when `atm_iv`
is absent or falsy (zero). -/
structure ResearchSummary where
  symbol : String
  underlying_price : ℚ
  iv_environment : String
  expected_move_inputs : Option (ℚ × List ℤ)
  catalysts : List CatalystRec
deriving Repr

/-- `build_research_summary` (overview classification, expected-move
inputs, earnings and clinical-trial catalysts, merged and stable-sorted
ascending by `days_until`).  The strategy-idea and report-formatting
sections are presentation code no claim touches and are not modelled. -/
def build_research_summary (today : ℤ) (symbol : String) (underlying_price : ℚ)
    (options_expirations : List String) (earnings_date : Option ℤ)
    (clinical_trials : Option (List TrialInput))
    (atm_iv iv_rank iv_percentile : Option ℚ) : ResearchSummary :=
  let iv_environment := _classify_iv_environment iv_rank iv_percentile
  let expected_move_inputs : Option (ℚ × List ℤ) :=
    match atm_iv with
    | some v => if v = 0 then none else some (research_normalized_iv v, [7, 14, 30, 45])
    | none => none
  let earnings_cats : List CatalystRec :=
    match earnings_date with
    | some ed =>
      [CatalystRec.mk "earnings" ed (ed - today) none none none
        (filter_by_catalyst_proximity options_expirations ed 5 7)
        (find_nearest_post_catalyst_expiration options_expirations ed 1 14)]
    | none => []
  let trial_cats : List CatalystRec :=
    match clinical_trials with
    | none => []
    | some trials =>
      (trials.take 5).filterMap (fun trial =>
        match trial.primary_completion_date with
        | none => none
        | some s =>
          match parse_date10 s with
          | none => none
          | some d =>
            if 0 < d - today then
              some (CatalystRec.mk "clinical_trial" d (d - today)
                (some ((trial.brief_title).getD ((trial.title).getD "Unknown")))
                trial.phase trial.nct_id
                (filter_by_catalyst_proximity options_expirations d 5 14) none)
            else none)
  let catalysts := stableSort (fun a b => a.days_until ≤ b.days_until)
    (earnings_cats ++ trial_cats)
  ResearchSummary.mk symbol underlying_price iv_environment expected_move_inputs catalysts

/-! ## openbb_nih clinical_trials.py — transform_data -/

/-- The slice of a raw registry study record that decides filtering and
sorting: the NCT id and the date string found inside
`primaryCompletionDateStruct` (`none` when the struct or its `date` key is
absent).  The remaining flattened fields do not affect the claim. -/
structure RawStudy where
  nct_id : Option String
  pcd_raw : Option String
deriving DecidableEq, Repr

/-- The transformed trial record (the fields the claim is about): the
derived `primary_completion_date` is the lenient parse of the struct's
date string, `none` on absence or parse failure — exactly what the
`validate_dates` pydantic validator stores. -/
structure TrialRecord where
  nct_id : Option String
  primary_completion_date : Option ℤ
deriving DecidableEq, Repr

/-- The date derived from a raw study record, as computed both by
`transform_data`'s filter and by `validate_dates`. -/
def derive_pcd (s : RawStudy) : Option ℤ := s.pcd_raw.bind parse_date10

/-- The date-window exclusion test of `transform_data`: a record is dropped
iff a bound is supplied, the derived date exists, and the date lies
strictly outside the bound (`continue` branches). -/
def trial_keep (start_date end_date : Option ℤ) (pd : Option ℤ) : Bool :=
  (match start_date, pd with
   | some sd, some p => decide (¬ p < sd)
   | _, _ => true)
  && (match end_date, pd with
      | some ed, some p => decide (¬ ed < p)
      | _, _ => true)

/-- `transform_data`: raises `EmptyDataError` (modelled as `Except.error`)
when the registry data is empty, keeps records passing the date window,
raises again when the filtered result is empty, and stable-sorts ascending
by `primary_completion_date` with `date.max` substituted for absent
dates. -/
def transform_data (start_date end_date : Option ℤ) (data : List RawStudy) :
    Except String (List TrialRecord) :=
  if data = [] then Except.error "No clinical trials found for the given query."
  else
    let results := data.filterMap (fun s =>
      if trial_keep start_date end_date (derive_pcd s) then
        some (TrialRecord.mk s.nct_id (derive_pcd s))
      else none)
    if results = [] then Except.error "No clinical trials found matching the date criteria."
    else Except.ok (stableSort (fun a b =>
      (a.primary_completion_date).getD pyDateMax ≤ (b.primary_completion_date).getD pyDateMax) results)

/-! ## options_router.py — the surface and catalyst_screen entry points -/

/-- The `option_type` parameter of `surface`. -/
inductive SurfaceType where
  | otm : SurfaceType
  | itm : SurfaceType
  | calls : SurfaceType
  | puts : SurfaceType
deriving DecidableEq, Repr

/-- The validation prefix of the `surface` entry point, in source order:
empty data is an error; then the underlying price is resolved by
`underlying_price or options.underlying_price.iloc[0]` (a zero parameter
is falsy and falls through to the data; a missing column — modelled as the
first row carrying no value — also fails, the source raising there either
the descriptive `OpenBBError` or an `AttributeError`, both of which stop
processing); then a missing `target` column is an error.  `cols` stands
for `df.columns`.  The body past validation is not modelled. -/
def surface_validate (data : List ChainRow) (cols : List String) (target : String)
    (underlying_price : Option ℚ) (option_type : Option SurfaceType) :
    Except String Unit :=
  if data = [] then Except.error "No data to process!"
  else
    let first_price : Option ℚ := (data.head?).bind (fun r => r.underlying_price)
    let last_price : Option ℚ :=
      match underlying_price with
      | some p => if p = 0 then first_price else some p
      | none => first_price
    match last_price with
    | none => Except.error
        "Last price must be provided for options filtering, and was not found in the data."
    | some _ =>
      if target ∉ cols then Except.error ("Error: No " ++ target ++ " field found.")
      else Except.ok ()

/-- A screened row as returned by `catalyst_screen`: the chain row,
augmented (when scoring is requested) with `catalyst_score` and
`recommendation`. -/
structure ScreenedRec where
  row : ChainRow
  scoring : Option (ℝ × String)

/-- The `catalyst_screen` entry point: validation (empty data, strict
`%Y-%m-%d` catalyst date, resolvable underlying price), screening via
`screen_options_before_earnings`, then optional per-row scoring with the
constant `iv_rank = 50.0`.  Per row, `dte` falls back to 30 when the
expiration fails to re-parse, the row's IV is normalized by the strict
`> 10` test, and the expected-move percent is
`iv * sqrt(dte/365) * 100` (with the falsy-zero IV defaulting it to 5.0).
For a negative `dte` Python's `(dte/365) ** 0.5` would leave the real
numbers; `Real.sqrt` returns 0 there, and no claim depends on that case.
The unused `get_atm_iv` fallback for a missing IV column is dead here
because the column is always present. -/
noncomputable def catalyst_screen (today : ℤ) (data : List ChainRow)
    (catalyst_date : String) (underlying_price : Option ℚ) (min_iv : Option ℚ)
    (max_strike_distance_pct : ℚ) (option_type : Option OType)
    (include_scoring : Bool) : Except String (List ScreenedRec) :=
  if data = [] then Except.error "No data to process!"
  else
    match parse_date_strict catalyst_date with
    | none => Except.error "Invalid date format. Use YYYY-MM-DD:"
    | some catalyst_dt =>
      let last_price : Option ℚ :=
        match underlying_price with
        | some p => some p
        | none => (data.head?).bind (fun r => r.underlying_price)
      match last_price with
      | none => Except.error "underlying_price must be provided or present in the data."
      | some price =>
        let screened := screen_options_before_earnings data catalyst_dt price
          min_iv max_strike_distance_pct option_type
        if screened = [] then Except.ok []
        else if include_scoring then
          let days_to_catalyst := catalyst_dt - today
          Except.ok (screened.map (fun r =>
            let dte : ℤ := match parse_date10 r.expiration with
              | some e => e - today
              | none => 30
            let record_iv : ℚ :=
              if 10 < r.implied_volatility then r.implied_volatility / 100
              else r.implied_volatility
            let expected_move_pct : ℝ :=
              if r.implied_volatility = 0 then 5
              else (record_iv : ℝ) * Real.sqrt ((Int.cast dte : ℝ) / 365) * 100
            let info := score_catalyst_play expected_move_pct (50 : ℝ)
              days_to_catalyst dte
            ScreenedRec.mk r (some (info.composite_score, info.recommendation))))
        else Except.ok (screened.map (fun r => ScreenedRec.mk r none))

/-- The `.ok` payload of an entry-point result, `[]` on error — used to
state per-row facts about successful results without a membership
hypothesis. -/
def okRows {α : Type} (e : Except String (List α)) : List α :=
  match e with
  | Except.ok l => l
  | Except.error _ => []

instance {ε α : Type} [DecidableEq ε] [DecidableEq α] : DecidableEq (Except ε α) := fun x y =>
  match x, y with
  | Except.ok a, Except.ok b =>
    if h : a = b then isTrue (by rw [h]) else isFalse (by simp [h])
  | Except.error a, Except.error b =>
    if h : a = b then isTrue (by rw [h]) else isFalse (by simp [h])
  | Except.ok _, Except.error _ => isFalse (by simp)
  | Except.error _, Except.ok _ => isFalse (by simp)

/-! ## Helper lemmas -/

theorem mem_insertAt {α : Type} (le : α → α → Bool) (a b : α) (l : List α) :
    b ∈ insertAt le a l ↔ b = a ∨ b ∈ l := by
  induction l with
  | nil => simp [insertAt]
  | cons c cs ih =>
    simp only [insertAt]
    split
    · simp
    · simp only [List.mem_cons, ih]
      tauto

theorem insertAt_perm {α : Type} (le : α → α → Bool) (a : α) (l : List α) :
    (insertAt le a l).Perm (a :: l) := by
  induction l with
  | nil => simp [insertAt]
  | cons c cs ih =>
    simp only [insertAt]
    split
    · exact List.Perm.refl _
    · exact (List.Perm.cons c ih).trans (List.Perm.swap a c cs)

theorem stableSort_perm {α : Type} (le : α → α → Bool) (l : List α) :
    (stableSort le l).Perm l := by
  induction l with
  | nil => exact List.Perm.refl _
  | cons a as ih =>
    exact (insertAt_perm le a (stableSort le as)).trans (List.Perm.cons a ih)

theorem mem_stableSort {α : Type} (le : α → α → Bool) (a : α) (l : List α) :
    a ∈ stableSort le l ↔ a ∈ l :=
  (stableSort_perm le l).mem_iff

theorem pairwise_insertAt {α : Type} (le : α → α → Bool)
    (htrans : ∀ x y z, le x y = true → le y z = true → le x z = true)
    (htotal : ∀ x y, le x y = true ∨ le y x = true)
    (a : α) (l : List α) (hl : l.Pairwise (fun x y => le x y = true)) :
    (insertAt le a l).Pairwise (fun x y => le x y = true) := by
  induction l with
  | nil => simp [insertAt]
  | cons c cs ih =>
    rcases hl with _ | ⟨hc, hcs⟩
    simp only [insertAt]
    split
    · rename_i hac
      refine List.Pairwise.cons ?_ (List.Pairwise.cons hc hcs)
      intro b hb
      rcases List.mem_cons.mp hb with rfl | hb
      · exact hac
      · exact htrans a c b hac (hc b hb)
    · rename_i hac
      have hca : le c a = true := by
        rcases htotal a c with h | h
        · exact absurd h hac
        · exact h
      refine List.Pairwise.cons ?_ (ih hcs)
      intro b hb
      rcases (mem_insertAt le a b cs).mp hb with rfl | hb
      · exact hca
      · exact hc b hb

theorem pairwise_stableSort {α : Type} (le : α → α → Bool)
    (htrans : ∀ x y z, le x y = true → le y z = true → le x z = true)
    (htotal : ∀ x y, le x y = true ∨ le y x = true)
    (l : List α) : (stableSort le l).Pairwise (fun x y => le x y = true) := by
  induction l with
  | nil => simp [stableSort]
  | cons a as ih => exact pairwise_insertAt le htrans htotal a _ ih

theorem minDate_go (l : List ℤ) : ∀ a m : ℤ,
    l.foldl (fun acc d =>
      match acc with
      | none => some d
      | some a => some (min a d)) (some a) = some m →
    m ≤ a ∧ (∀ d ∈ l, m ≤ d) := by
  induction l with
  | nil =>
    intro a m h
    simp at h
    simp [h]
  | cons b bs ih =>
    intro a m h
    simp only [List.foldl_cons] at h
    have := ih (min a b) m h
    refine ⟨le_trans this.1 (min_le_left a b), ?_⟩
    intro d hd
    rcases List.mem_cons.mp hd with rfl | hd
    · exact le_trans this.1 (min_le_right a d)
    · exact this.2 d hd

theorem minDate_le (l : List ℤ) (m : ℤ) (h : minDate l = some m) :
    ∀ d ∈ l, m ≤ d := by
  cases l with
  | nil => simp [minDate] at h
  | cons b bs =>
    simp only [minDate, List.foldl_cons] at h
    have := minDate_go bs b m h
    intro d hd
    rcases List.mem_cons.mp hd with rfl | hd
    · exact this.1
    · exact this.2 d hd

theorem minDate_eq_none (l : List ℤ) : minDate l = none ↔ l = [] := by
  cases l with
  | nil => simp [minDate]
  | cons b bs =>
    simp only [minDate, List.foldl_cons]
    constructor
    · intro h
      exfalso
      induction bs generalizing b with
      | nil => simp at h
      | cons c cs ih => exact ih (min b c) (by simpa using h)
    · intro h
      exact absurd h (by simp)

theorem filter_filter_of_imp {α : Type} (p q : α → Bool)
    (h : ∀ a, p a = true → q a = true) (l : List α) :
    (l.filter q).filter p = l.filter p := by
  induction l with
  | nil => rfl
  | cons a as ih =>
    by_cases hp : p a = true
    · have hq := h a hp
      simp [List.filter_cons, hp, hq, ih]
    · have hp2 : p a = false := Bool.eq_false_iff.mpr hp
      simp only [List.filter_cons]
      cases hqa : q a
      · simpa [List.filter_cons, hp2] using ih
      · simpa [List.filter_cons, hqa, hp2] using ih

theorem filterMap_filter_of_none {α β : Type} (f : α → Option β) (q : α → Bool)
    (h : ∀ a, q a = false → f a = none) (l : List α) :
    (l.filter q).filterMap f = l.filterMap f := by
  induction l with
  | nil => rfl
  | cons a as ih =>
    cases hqa : q a
    · simp [List.filter_cons, hqa, List.filterMap_cons, h a hqa, ih]
    · simp [List.filter_cons, hqa, List.filterMap_cons, ih]

section RoundLemmas

variable {α : Type} [LinearOrderedField α] [FloorRing α]

theorem pyRound_intCast (n : ℤ) : pyRound ((n : α)) = n := by
  unfold pyRound
  rw [Int.fract_intCast, round_intCast]
  norm_num

theorem pyRound1_intCast (n : ℤ) : pyRound1 ((n : α)) = (n : α) := by
  unfold pyRound1
  have : ((n : α)) * 10 = ((n * 10 : ℤ) : α) := by push_cast; ring
  rw [this, pyRound_intCast]
  push_cast
  ring

theorem pyRound_le (x : α) (n : ℤ) (h : x ≤ (n : α)) : pyRound x ≤ n := by
  unfold pyRound
  split
  · rename_i hf
    have hx : x = (⌊x⌋ : α) + 1/2 := by
      have hadd := Int.fract_add_floor x
      rw [hf] at hadd
      linarith [hadd]
    have hfl : (⌊x⌋ : α) < (n : α) := by rw [hx] at h; linarith
    have hlt : ⌊x⌋ < n := by exact_mod_cast hfl
    split
    · omega
    · omega
  · rw [round_eq]
    have hle : x + 1/2 ≤ (n : α) + 1/2 := by linarith
    calc ⌊x + 1/2⌋ ≤ ⌊(n : α) + 1/2⌋ := Int.floor_le_floor hle
    _ = n := by
        rw [add_comm, Int.floor_add_int]
        norm_num

end RoundLemmas

section CastLemmas

variable {α : Type} [LinearOrderedField α] [FloorRing α]

theorem fract_ratCast (q : ℚ) : Int.fract ((q : α)) = ((Int.fract q : ℚ) : α) := by
  unfold Int.fract
  rw [Rat.floor_cast]
  push_cast
  ring

theorem pyRound_ratCast (q : ℚ) : pyRound ((q : α)) = pyRound q := by
  unfold pyRound
  rw [Rat.floor_cast, Rat.round_cast, fract_ratCast]
  have hiff : ((Int.fract q : ℚ) : α) = 1/2 ↔ Int.fract q = 1/2 := by
    rw [show (1/2 : α) = ((1/2 : ℚ) : α) by push_cast; ring]
    exact Rat.cast_inj
  by_cases hc : Int.fract q = 1/2
  · rw [if_pos (hiff.mpr hc), if_pos hc]
  · rw [if_neg (fun hh => hc (hiff.mp hh)), if_neg hc]

theorem pyRound2_ratCast (q : ℚ) : pyRound2 ((q : α)) = ((pyRound2 q : ℚ) : α) := by
  unfold pyRound2
  rw [show ((q : α)) * 100 = ((q * 100 : ℚ) : α) by push_cast; ring, pyRound_ratCast]
  push_cast
  ring

theorem pyRound2_zero : pyRound2 ((0 : α)) = 0 := by
  unfold pyRound2
  rw [show (0 : α) * 100 = ((0 : ℤ) : α) by push_cast; ring, pyRound_intCast]
  push_cast
  ring

end CastLemmas

/-! ## Claim C6 — calculate_iv_percentile -/

/-- C6 counterexample: the claim says `iv_percentile(x, hist)` equals
exactly `100 * count(h < x) / len(hist)`, but the source rounds to two
decimals: at `x = 1`, `hist = [0, 2, 3]` the code returns `33.33` while
the exact ratio is `100/3`. -/
theorem C6_counterexample :
    ¬ (calculate_iv_percentile 1 [0, 2, 3]
        = 100 * (([0, 2, 3] : List ℚ).countP (fun h => decide (h < 1)) : ℚ) / 3) := by
  have hc : (([0, 2, 3] : List ℚ).countP (fun h => decide (h < 1))) = 1 := by decide
  have hval : calculate_iv_percentile 1 [0, 2, 3] = 3333/100 := by
    unfold calculate_iv_percentile
    rw [if_neg (by simp), hc]
    norm_num [pyRound2, pyRound, Int.fract, round_eq]
  rw [hval, hc]
  norm_num

/-- C6 (amended): `iv_percentile(x, []) = 50.0` for every `x`; for nonempty
history the result is `100 * count(h < x) / len(hist)` rounded to two
decimal places (ties do not count as lower); when `x` equals every entry
the result is `0`. -/
theorem C6_iv_percentile (x : ℚ) (hist : List ℚ) :
    calculate_iv_percentile x [] = 50 ∧
    (hist ≠ [] → calculate_iv_percentile x hist
      = pyRound2 (100 * (hist.countP (fun h => decide (h < x)) : ℚ) / (hist.length : ℚ))) ∧
    (hist ≠ [] → (∀ h ∈ hist, h = x) → calculate_iv_percentile x hist = 0) := by
  refine ⟨by unfold calculate_iv_percentile; simp, ?_, ?_⟩
  · intro hne
    unfold calculate_iv_percentile
    rw [if_neg hne]
    congr 1
    ring
  · intro hne hall
    unfold calculate_iv_percentile
    rw [if_neg hne]
    have hc : hist.countP (fun h => decide (h < x)) = 0 := by
      apply List.countP_eq_zero.mpr
      intro h hh
      simp [hall h hh]
    rw [hc]
    simpa using pyRound2_zero

/-- C6 witness: the amended theorem evaluated at concrete inputs — empty
history gives 50, a history equal to the current value everywhere gives
0, and a 4-element history with one strictly-lower entry gives 25. -/
theorem C6_witness :
    calculate_iv_percentile 5 [] = 50 ∧
    calculate_iv_percentile (3/10) [3/10, 3/10] = 0 ∧
    calculate_iv_percentile 1 [0, 2, 3, 4]
      = pyRound2 (100 * (([0, 2, 3, 4] : List ℚ).countP (fun h => decide (h < 1)) : ℚ) / 4) := by
  refine ⟨(C6_iv_percentile 5 []).1, ?_, ?_⟩
  · exact (C6_iv_percentile (3/10) [3/10, 3/10]).2.2 (by simp) (by intro h hh; rcases List.mem_cons.mp hh with rfl | hh2 <;> simp_all)
  · have := (C6_iv_percentile 1 [0, 2, 3, 4]).2.1 (by simp)
    simpa using this

/-! ## Claim C3 — score_catalyst_play -/

theorem time_score_cast (em iv : ℚ) (dtc dte : ℤ) :
    (score_catalyst_play em iv dtc dte).time_alignment_score
      = ((time_alignment dtc dte : ℤ) : ℚ) := by
  simp [score_catalyst_play, pyRound1_intCast]

theorem move_score_cast (em iv : ℚ) (dtc dte : ℤ) :
    (score_catalyst_play em iv dtc dte).expected_move_score
      = ((move_score em : ℤ) : ℚ) := by
  simp [score_catalyst_play, pyRound1_intCast]

/-- C3 (confirmed): `score_catalyst_play` computes the time-alignment
score by the exact piecewise rule on `d = days_to_expiration -
days_to_catalyst`, the expected-move score by right-open bins, and the
composite as `0.4*iv_rank + 0.35*time + 0.25*move` rounded to one
decimal; the inputs `(8.0, 85.0, 5, 7)` give a composite `≥ 80` with the
strong sell-premium recommendation, and `(dte, dtc) = (5, 10)` gives a
time score `< 50`. -/
theorem C3_score_catalyst_play (em iv : ℚ) (dtc dte : ℤ) :
    ((dte - dtc < 0 → (score_catalyst_play em iv dtc dte).time_alignment_score
        = ((max 0 (50 + 10 * (dte - dtc)) : ℤ) : ℚ)) ∧
     (0 ≤ dte - dtc → dte - dtc ≤ 3 →
        (score_catalyst_play em iv dtc dte).time_alignment_score = 100) ∧
     (4 ≤ dte - dtc → dte - dtc ≤ 7 →
        (score_catalyst_play em iv dtc dte).time_alignment_score = 80) ∧
     (7 < dte - dtc → (score_catalyst_play em iv dtc dte).time_alignment_score
        = ((max 30 (80 - 5 * (dte - dtc - 7)) : ℤ) : ℚ))) ∧
    ((em < 2 → (score_catalyst_play em iv dtc dte).expected_move_score = 20) ∧
     (2 ≤ em → em < 5 → (score_catalyst_play em iv dtc dte).expected_move_score = 50) ∧
     (5 ≤ em → em < 10 → (score_catalyst_play em iv dtc dte).expected_move_score = 80) ∧
     (10 ≤ em → (score_catalyst_play em iv dtc dte).expected_move_score = 100)) ∧
    ((score_catalyst_play em iv dtc dte).composite_score
      = pyRound1 ((4/10) * iv + (35/100) * ((time_alignment dtc dte : ℤ) : ℚ)
          + (25/100) * ((move_score em : ℤ) : ℚ))) ∧
    (80 ≤ (score_catalyst_play (8:ℚ) 85 5 7).composite_score ∧
     (score_catalyst_play (8:ℚ) 85 5 7).recommendation
        = "Strong sell premium candidate (high IV, good timing)") ∧
    (score_catalyst_play em iv 10 5).time_alignment_score < 50 := by
  have hconc : (score_catalyst_play (8:ℚ) 85 5 7).composite_score = 89 ∧
      (score_catalyst_play (8:ℚ) 85 5 7).recommendation
        = "Strong sell premium candidate (high IV, good timing)" := by
    have hm : move_score (8:ℚ) = 80 := by unfold move_score; norm_num
    have ht : time_alignment 5 7 = 100 := by decide
    have hc : composite_raw (8:ℚ) 85 5 7 = 89 := by
      unfold composite_raw
      rw [hm, ht]
      norm_num
    constructor
    · show pyRound1 (composite_raw (8:ℚ) 85 5 7) = 89
      rw [hc, show (89:ℚ) = ((89:ℤ):ℚ) by norm_num, pyRound1_intCast]
    · show get_recommendation (composite_raw (8:ℚ) 85 5 7) 85 = _
      rw [hc]
      unfold get_recommendation
      norm_num
  refine ⟨⟨?_, ?_, ?_, ?_⟩, ⟨?_, ?_, ?_, ?_⟩, ?_, ⟨hconc.1 ▸ by norm_num, hconc.2⟩, ?_⟩
  · intro h
    rw [time_score_cast]
    congr 1
    unfold time_alignment
    rw [if_pos h]
    ring_nf
  · intro h0 h3
    rw [time_score_cast]
    have : time_alignment dtc dte = 100 := by
      unfold time_alignment
      rw [if_neg (by omega), if_pos (by omega)]
    rw [this]
    norm_num
  · intro h4 h7
    rw [time_score_cast]
    have : time_alignment dtc dte = 80 := by
      unfold time_alignment
      rw [if_neg (by omega), if_neg (by omega), if_pos (by omega)]
    rw [this]
    norm_num
  · intro h7
    rw [time_score_cast]
    congr 1
    unfold time_alignment
    rw [if_neg (by omega), if_neg (by omega), if_neg (by omega)]
    ring_nf
  · intro h
    rw [move_score_cast]
    have : move_score em = 20 := by unfold move_score; rw [if_pos h]
    rw [this]
    norm_num
  · intro h2 h5
    rw [move_score_cast]
    have : move_score em = 50 := by
      unfold move_score
      rw [if_neg (by linarith), if_pos h5]
    rw [this]
    norm_num
  · intro h5 h10
    rw [move_score_cast]
    have : move_score em = 80 := by
      unfold move_score
      rw [if_neg (by linarith), if_neg (by linarith), if_pos h10]
    rw [this]
    norm_num
  · intro h10
    rw [move_score_cast]
    have : move_score em = 100 := by
      unfold move_score
      rw [if_neg (by linarith), if_neg (by linarith), if_neg (by linarith)]
    rw [this]
    norm_num
  · show pyRound1 (composite_raw em iv dtc dte) = _
    congr 1
    unfold composite_raw
    ring
  · rw [time_score_cast]
    have : time_alignment 10 5 = 0 := by decide
    rw [this]
    norm_num

/-- C3 witness: the theorem applied at concrete inputs, discharging the
piecewise hypotheses there. -/
theorem C3_witness :
    (score_catalyst_play (3:ℚ) 40 10 5).time_alignment_score
      = ((max 0 (50 + 10 * ((5:ℤ) - 10)) : ℤ) : ℚ) ∧
    (score_catalyst_play (3:ℚ) 40 10 5).expected_move_score = 50 ∧
    80 ≤ (score_catalyst_play (8:ℚ) 85 5 7).composite_score := by
  refine ⟨(C3_score_catalyst_play 3 40 10 5).1.1 (by decide),
    (C3_score_catalyst_play 3 40 10 5).2.1.2.1 (by norm_num) (by norm_num),
    (C3_score_catalyst_play 3 40 10 5).2.2.2.1.1⟩

/-! ## Claim C1 — IV normalization thresholds -/

/-- C1 counterexample: the claim says a raw IV of exactly 10 is left
unchanged everywhere, but `build_research_summary` normalizes with
`atm_iv if atm_iv < 10 else atm_iv / 100`, so an ATM IV of exactly 10 is
divided by 100 before the expected-move computation. -/
theorem C1_counterexample :
    (build_research_summary 0 "XYZ" 100 [] none none (some 10) none
        none).expected_move_inputs = some (1/10, [7, 14, 30, 45]) ∧
    ((1 : ℚ)/10 ≠ 10) := by
  constructor
  · unfold build_research_summary
    simp only [research_normalized_iv]
    norm_num
  · norm_num

/-- C1 (amended): `screen_options_before_earnings`'s min-IV filter
normalizes with the strict test `x > 10` (raw 10 unchanged), but
`iv_term_structure` and `build_research_summary` keep the raw value only
when it is `< 10` and divide by 100 when it is `≥ 10`, so a raw value of
exactly 10 is divided by 100 by those two. -/
theorem C1_iv_normalization (x : ℚ) (chain : List ChainRow) (p : ℚ)
    (e : TermStructureEntry) (today : ℤ) (symbol : String) (price : ℚ)
    (exps : List String) (earn : Option ℤ) (trials : Option (List TrialInput))
    (v : ℚ) (rank pct : Option ℚ) :
    (x ≤ 10 → normalize_iv_screen x = x) ∧
    (10 < x → normalize_iv_screen x = x / 100) ∧
    (e ∈ iv_term_structure chain p →
      ∃ raw, get_atm_iv chain p (some e.expiration) = some raw ∧
        e.atm_iv = (if raw < 10 then pyRound4 raw else pyRound4 (raw / 100))) ∧
    (v ≠ 0 →
      (build_research_summary today symbol price exps earn trials (some v) rank
          pct).expected_move_inputs
        = some ((if v < 10 then v else v / 100), [7, 14, 30, 45])) := by
  refine ⟨?_, ?_, ?_, ?_⟩
  · intro h
    unfold normalize_iv_screen
    rw [if_neg (by linarith)]
  · intro h
    unfold normalize_iv_screen
    rw [if_pos h]
  · intro h
    unfold iv_term_structure at h
    split at h
    · simp at h
    · rw [mem_stableSort] at h
      rcases List.mem_filterMap.mp h with ⟨exp, hexp, hmap⟩
      rcases Option.map_eq_some'.mp hmap with ⟨raw, hraw, hentry⟩
      subst hentry
      exact ⟨raw, hraw, rfl⟩
  · intro hv
    unfold build_research_summary
    simp only [research_normalized_iv]
    rw [if_neg hv]

/-- C1 witness: the amended theorem applied at raw IV exactly 10 for the
screener normalization (unchanged), at a concrete one-row chain for the
term structure, and at a concrete summary whose ATM IV of 10 is divided. -/
theorem C1_witness :
    normalize_iv_screen 10 = 10 ∧
    normalize_iv_screen 12 = 12 / 100 ∧
    (∃ raw, get_atm_iv [ChainRow.mk 100 "2024-01-19" OType.call 2 none] 100
        (some (TermStructureEntry.mk "2024-01-19" 2).expiration) = some raw ∧
      (TermStructureEntry.mk "2024-01-19" 2).atm_iv
        = (if raw < 10 then pyRound4 raw else pyRound4 (raw / 100))) ∧
    (build_research_summary 5 "AB" 50 [] none none (some 10) none
        none).expected_move_inputs
      = some ((if (10:ℚ) < 10 then 10 else 10 / 100), [7, 14, 30, 45]) := by
  have hmem : TermStructureEntry.mk "2024-01-19" 2
      ∈ iv_term_structure [ChainRow.mk 100 "2024-01-19" OType.call 2 none] 100 := by
    have h1 : pyTake10 "2024-01-19" = "2024-01-19" := by decide
    have h2 : uniqueFirst ["2024-01-19"] = ["2024-01-19"] := by decide
    have hget : get_atm_iv [ChainRow.mk 100 "2024-01-19" OType.call 2 none] 100
        (some "2024-01-19") = some 2 := by
      have h4 : (OType.call = OType.put) = False := by simp
      unfold get_atm_iv firstMinBy
      norm_num [h1, h4, List.filter_cons, List.filter_nil]
    unfold iv_term_structure
    rw [if_neg (by simp)]
    simp only [List.map_cons, List.map_nil, h2, List.filterMap_cons, List.filterMap_nil,
      h1, hget]
    norm_num [stableSort, insertAt, pyRound4, pyRound, Int.fract, round_eq]
  refine ⟨(C1_iv_normalization 10 [] 0 (TermStructureEntry.mk "" 0) 0 "" 0 [] none none 1
      none none).1 (by norm_num),
    (C1_iv_normalization 12 [] 0 (TermStructureEntry.mk "" 0) 0 "" 0 [] none none 1
      none none).2.1 (by norm_num),
    (C1_iv_normalization 10 [ChainRow.mk 100 "2024-01-19" OType.call 2 none] 100
      (TermStructureEntry.mk "2024-01-19" 2) 0 "" 0 [] none none 1 none none).2.2.1 hmem,
    (C1_iv_normalization 10 [] 0 (TermStructureEntry.mk "" 0) 5 "AB" 50 [] none none 10
      none none).2.2.2 (by norm_num)⟩

/-! ## Claim C7 — calculate_expected_move -/

/-- C7 counterexample: the claim says `expected_move(P, iv, 0)` returns the
range `(P, P)` exactly, but the source rounds the bounds to two decimals:
at `P = 1/3` the returned bounds are `0.33`, not `1/3`. -/
theorem C7_counterexample :
    calculate_expected_move ((1:ℝ)/3) (3/10) 0 365 ≠ ((0:ℝ), (0:ℝ), ((1:ℝ)/3, (1:ℝ)/3)) := by
  have hval : pyRound2 ((1:ℝ)/3) = ((33:ℝ)/100) := by
    rw [show ((1:ℝ)/3) = (((1/3 : ℚ) : ℝ)) by push_cast; ring, pyRound2_ratCast]
    have : pyRound2 ((1:ℚ)/3) = 33/100 := by
      norm_num [pyRound2, pyRound, Int.fract, round_eq]
    rw [this]
    push_cast
    ring
  intro h
  unfold calculate_expected_move at h
  rw [show (((0:ℤ):ℝ) / ((365:ℤ):ℝ)) = 0 by norm_num, Real.sqrt_zero] at h
  simp only [mul_zero, sub_zero, add_zero, zero_mul] at h
  have h3 := (Prod.mk.injEq _ _ _ _).mp h
  have h4 := (Prod.mk.injEq _ _ _ _).mp h3.2
  have h5 := (Prod.mk.injEq _ _ _ _).mp h4.2
  rw [hval] at h5
  have := h5.1
  norm_num at this

/-- C7 (amended): `expected_move(P, iv, 0)` returns a zero move with the
range collapsed to the price rounded to two decimals,
`(round2 P, round2 P)`; for `days > 0` the dollar move is
`P * iv * sqrt(days / annualization_days)` with the dollar amount, both
range bounds, and the percent each rounded to two decimal places. -/
theorem C7_expected_move (P iv : ℝ) (a : ℤ) :
    calculate_expected_move P iv 0 a = (0, 0, (pyRound2 P, pyRound2 P)) ∧
    (∀ d : ℤ, 0 < d →
      calculate_expected_move P iv d a
        = (pyRound2 (P * iv * Real.sqrt (((d:ℤ):ℝ)/((a:ℤ):ℝ))),
           pyRound2 (iv * Real.sqrt (((d:ℤ):ℝ)/((a:ℤ):ℝ)) * 100),
           (pyRound2 (P - P * iv * Real.sqrt (((d:ℤ):ℝ)/((a:ℤ):ℝ))),
            pyRound2 (P + P * iv * Real.sqrt (((d:ℤ):ℝ)/((a:ℤ):ℝ)))))) := by
  constructor
  · unfold calculate_expected_move
    rw [show (((0:ℤ):ℝ) / ((a:ℤ):ℝ)) = 0 by norm_num, Real.sqrt_zero]
    simp only [mul_zero, sub_zero, add_zero, zero_mul]
    rw [pyRound2_zero]
  · intro d hd
    rfl

/-- C7 witness: the amended theorem at `P = 100`, `iv = 0.30`, with zero
days and with 30 of 365 days. -/
theorem C7_witness :
    calculate_expected_move 100 (3/10) 0 365
      = (0, 0, (pyRound2 (100:ℝ), pyRound2 (100:ℝ))) ∧
    calculate_expected_move 100 (3/10) 30 365
      = (pyRound2 ((100:ℝ) * (3/10) * Real.sqrt (((30:ℤ):ℝ)/((365:ℤ):ℝ))),
         pyRound2 ((3/10:ℝ) * Real.sqrt (((30:ℤ):ℝ)/((365:ℤ):ℝ)) * 100),
         (pyRound2 ((100:ℝ) - 100 * (3/10) * Real.sqrt (((30:ℤ):ℝ)/((365:ℤ):ℝ))),
          pyRound2 ((100:ℝ) + 100 * (3/10) * Real.sqrt (((30:ℤ):ℝ)/((365:ℤ):ℝ))))) :=
  ⟨(C7_expected_move 100 (3/10) 365).1,
   (C7_expected_move 100 (3/10) 365).2 30 (by norm_num)⟩

/-! ## Claim C8 — IV environment classification and catalyst ordering -/

/-- C8 (confirmed): `build_research_summary` classifies
`overview.iv_environment` from `iv_rank` with fallback to `iv_percentile`
only when the rank is absent (thresholds 80/60/40/20, `"unknown"` when
both absent) — in particular rank 90 gives `"very_high"` and rank 10
gives `"very_low"` — and the returned catalysts list is always sorted
ascending by `days_until`. -/
theorem C8_research_summary (today : ℤ) (symbol : String) (price : ℚ)
    (exps : List String) (earn : Option ℤ) (trials : Option (List TrialInput))
    (atm rank pct : Option ℚ) (m : ℚ) :
    (rank = none → pct = none →
      (build_research_summary today symbol price exps earn trials atm rank
        pct).iv_environment = "unknown") ∧
    ((80 ≤ m → (build_research_summary today symbol price exps earn trials atm (some m)
        pct).iv_environment = "very_high") ∧
     (60 ≤ m → m < 80 → (build_research_summary today symbol price exps earn trials atm
        (some m) pct).iv_environment = "elevated") ∧
     (40 ≤ m → m < 60 → (build_research_summary today symbol price exps earn trials atm
        (some m) pct).iv_environment = "neutral") ∧
     (20 ≤ m → m < 40 → (build_research_summary today symbol price exps earn trials atm
        (some m) pct).iv_environment = "low") ∧
     (m < 20 → (build_research_summary today symbol price exps earn trials atm (some m)
        pct).iv_environment = "very_low")) ∧
    ((build_research_summary today symbol price exps earn trials atm none (some m)
        ).iv_environment = classify_metric m) ∧
    (build_research_summary today symbol price exps earn trials atm (some 90)
        pct).iv_environment = "very_high" ∧
    (build_research_summary today symbol price exps earn trials atm (some 10)
        pct).iv_environment = "very_low" ∧
    (build_research_summary today symbol price exps earn trials atm rank
        pct).catalysts.Pairwise (fun a b => a.days_until ≤ b.days_until) := by
  have henv : ∀ r p : Option ℚ,
      (build_research_summary today symbol price exps earn trials atm r p).iv_environment
        = _classify_iv_environment r p := fun _ _ => rfl
  have hlad : ∀ q : ℚ, (80 ≤ q → classify_metric q = "very_high") ∧
      (60 ≤ q → q < 80 → classify_metric q = "elevated") ∧
      (40 ≤ q → q < 60 → classify_metric q = "neutral") ∧
      (20 ≤ q → q < 40 → classify_metric q = "low") ∧
      (q < 20 → classify_metric q = "very_low") := by
    intro q
    unfold classify_metric
    refine ⟨fun h => by rw [if_pos h], fun h1 h2 => ?_, fun h1 h2 => ?_, fun h1 h2 => ?_,
      fun h => ?_⟩
    · rw [if_neg (by linarith), if_pos h1]
    · rw [if_neg (by linarith), if_neg (by linarith), if_pos h1]
    · rw [if_neg (by linarith), if_neg (by linarith), if_neg (by linarith), if_pos h1]
    · rw [if_neg (by linarith), if_neg (by linarith), if_neg (by linarith),
        if_neg (by linarith)]
  refine ⟨?_, ⟨?_, ?_, ?_, ?_, ?_⟩, ?_, ?_, ?_, ?_⟩
  · intro hr hp
    rw [henv, hr, hp]
    rfl
  · intro h
    rw [henv]
    exact (hlad m).1 h
  · intro h1 h2
    rw [henv]
    exact (hlad m).2.1 h1 h2
  · intro h1 h2
    rw [henv]
    exact (hlad m).2.2.1 h1 h2
  · intro h1 h2
    rw [henv]
    exact (hlad m).2.2.2.1 h1 h2
  · intro h
    rw [henv]
    exact (hlad m).2.2.2.2 h
  · rw [henv]
    rfl
  · rw [henv]
    exact (hlad 90).1 (by norm_num)
  · rw [henv]
    exact (hlad 10).2.2.2.2 (by norm_num)
  · have hp : ((build_research_summary today symbol price exps earn trials atm rank
        pct).catalysts).Pairwise (fun a b =>
          (fun x y : CatalystRec => decide (x.days_until ≤ y.days_until)) a b = true) := by
      show (stableSort _ _).Pairwise _
      apply pairwise_stableSort
      · intro x y z hxy hyz
        simp only [decide_eq_true_eq] at *
        omega
      · intro x y
        rcases le_total x.days_until y.days_until with h | h
        · left; simp [h]
        · right; simp [h]
    exact hp.imp (by intro a b h; simpa using h)

/-- C8 witness: the theorem applied at concrete arguments, discharging the
threshold hypotheses. -/
theorem C8_witness :
    (build_research_summary 0 "X" 1 [] none none none none none).iv_environment
      = "unknown" ∧
    (build_research_summary 0 "X" 1 [] none none none (some 90) none).iv_environment
      = "very_high" ∧
    (build_research_summary 0 "X" 1 [] none none none (some 10) none).iv_environment
      = "very_low" ∧
    (build_research_summary 0 "X" 1 [] none none none (some 65) none).iv_environment
      = "elevated" ∧
    (build_research_summary 0 "X" 1 [] none none none (some 45) (some 90)).catalysts.Pairwise
      (fun a b => a.days_until ≤ b.days_until) :=
  ⟨(C8_research_summary 0 "X" 1 [] none none none none none 0).1 rfl rfl,
   (C8_research_summary 0 "X" 1 [] none none none none none 0).2.2.2.1,
   (C8_research_summary 0 "X" 1 [] none none none none none 0).2.2.2.2.1,
   (C8_research_summary 0 "X" 1 [] none none none none none 65).2.1.2.1
     (by norm_num) (by norm_num),
   (C8_research_summary 0 "X" 1 [] none none none (some 45) (some 90) 0).2.2.2.2.2⟩

/-! ## Claim C4 — lenient internal parsing never raises -/

theorem screen_after_nil (p : ℚ) (miv : Option ℚ) (pct : ℚ) (ot : Option OType) :
    screen_after_expiration [] p miv pct ot = [] := rfl

/-- C4 (confirmed): the internal screening functions are total and treat
malformed date values by skipping them — each function computes the same
result as on the input restricted to parseable dates, so unparseable
values are silently excluded and a (possibly empty) result is always
returned; concretely, screening a chain containing a row with expiration
`"garbage"` returns the defined result that omits that row. -/
theorem C4_lenient_parsing (es : List String) (c db da minA maxA : ℤ)
    (chain : List ChainRow) (e : ℤ) (p : ℚ) (miv : Option ℚ) (pct : ℚ)
    (ot : Option OType) :
    filter_by_catalyst_proximity es c db da
      = filter_by_catalyst_proximity (es.filter (fun s => (parse_date10 s).isSome)) c db da ∧
    find_nearest_post_catalyst_expiration es c minA maxA
      = find_nearest_post_catalyst_expiration
          (es.filter (fun s => (parse_date10 s).isSome)) c minA maxA ∧
    screen_options_before_earnings chain e p miv pct ot
      = screen_options_before_earnings
          (chain.filter (fun r => (parse_date10 r.expiration).isSome)) e p miv pct ot ∧
    screen_options_before_earnings
        [ChainRow.mk 100 "2024-02-02" OType.call (1/2) none,
         ChainRow.mk 100 "garbage" OType.call (1/2) none]
        (toDayNumber 2024 2 1) 100 none 10 none
      = [ChainRow.mk 100 "2024-02-02" OType.call (1/2) none] := by
  refine ⟨?_, ?_, ?_, ?_⟩
  · unfold filter_by_catalyst_proximity
    refine (filter_filter_of_imp _ _ ?_ es).symm
    intro a ha
    cases hpp : parse_date10 a with
    | none => simp only [hpp] at ha; exact absurd ha (by simp)
    | some d => simp [Option.isSome, hpp]
  · unfold find_nearest_post_catalyst_expiration
    have := filterMap_filter_of_none
      (fun exp_str => (parse_date10 exp_str).bind (fun d =>
        if minA ≤ d - c ∧ d - c ≤ maxA then some (exp_str, d - c) else none))
      (fun s => (parse_date10 s).isSome)
      (by
        intro a ha
        cases hpp : parse_date10 a with
        | none => simp [hpp]
        | some d => simp [hpp] at ha) es
    rw [this]
  · have himp : ∀ r : ChainRow, post_earnings_filter e r = true
        → (parse_date10 r.expiration).isSome = true := by
      intro r hr
      unfold post_earnings_filter at hr
      cases hpp : parse_date10 r.expiration with
      | none => simp only [hpp] at hr; exact absurd hr (by simp)
      | some d => simp [Option.isSome, hpp]
    unfold screen_options_before_earnings
    by_cases hc : chain = []
    · subst hc
      simp
    · rw [if_neg hc]
      by_cases hc2 : chain.filter (fun r => (parse_date10 r.expiration).isSome) = []
      · rw [hc2, if_pos rfl]
        have hpost : chain.filter (post_earnings_filter e) = [] := by
          rw [List.filter_eq_nil_iff]
          intro r hr
          intro hcon
          have hmem : r ∈ chain.filter (fun r => (parse_date10 r.expiration).isSome) :=
            List.mem_filter.mpr ⟨hr, himp r hcon⟩
          rw [hc2] at hmem
          exact absurd hmem (List.not_mem_nil r)
        rw [hpost]
        exact screen_after_nil p miv pct ot
      · rw [if_neg hc2]
        rw [filter_filter_of_imp (post_earnings_filter e) _ himp chain]
  · have hp1 : parse_date10 "2024-02-02" = some (toDayNumber 2024 2 2) := by decide
    have hp2 : parse_date10 "garbage" = none := by decide
    have hlt : toDayNumber 2024 2 1 < toDayNumber 2024 2 2 := by decide
    unfold screen_options_before_earnings
    rw [if_neg (by simp)]
    have hfil : ([ChainRow.mk 100 "2024-02-02" OType.call (1/2) none,
        ChainRow.mk 100 "garbage" OType.call (1/2) none].filter
        (post_earnings_filter (toDayNumber 2024 2 1)))
        = [ChainRow.mk 100 "2024-02-02" OType.call (1/2) none] := by
      simp only [List.filter_cons, List.filter_nil, post_earnings_filter, hp1, hp2]
      simp [hlt]
    rw [hfil]
    unfold screen_after_expiration
    simp only [List.filterMap_cons, List.filterMap_nil, hp1, minDate, List.foldl_cons,
      List.foldl_nil]
    simp only [List.filter_cons, List.filter_nil, hp1]
    norm_num

/-! ## Claim C2 -- screen_options_before_earnings round-trip -/

theorem screen_after_sublist (l : List ChainRow) (p : ℚ) (miv : Option ℚ) (pct : ℚ)
    (ot : Option OType) : (screen_after_expiration l p miv pct ot).Sublist l := by
  unfold screen_after_expiration
  simp only []
  have hsub : (match minDate (List.filterMap (fun r : ChainRow => parse_date10 r.expiration) l) with
      | none => l
      | some first_exp =>
        List.filter (fun r : ChainRow => decide (parse_date10 r.expiration = some first_exp)) l).Sublist
      l := by
    split
    · exact List.Sublist.refl l
    · exact List.filter_sublist l
  generalize hg : (match minDate (List.filterMap (fun r : ChainRow => parse_date10 r.expiration) l) with
      | none => l
      | some first_exp =>
        List.filter (fun r : ChainRow => decide (parse_date10 r.expiration = some first_exp)) l)
      = df1 at hsub ⊢
  split
  · exact List.nil_sublist l
  · split
    · exact List.nil_sublist l
    · rcases miv with _ | m <;> rcases ot with _ | t
      · exact (List.filter_sublist _).trans hsub
      · exact ((List.filter_sublist _).trans (List.filter_sublist _)).trans hsub
      · exact ((List.filter_sublist _).trans (List.filter_sublist _)).trans hsub
      · exact (((List.filter_sublist _).trans (List.filter_sublist _)).trans
          (List.filter_sublist _)).trans hsub

theorem screen_mem_characterization (chain : List ChainRow) (e : ℤ) (p : ℚ) (miv : Option ℚ)
    (pct : ℚ) (ot : Option OType) (r : ChainRow)
    (hr : r ∈ screen_options_before_earnings chain e p miv pct ot) :
    r ∈ chain ∧
    (∃ d, parse_date10 r.expiration = some d ∧ e < d ∧
      (∀ r2 ∈ chain, ∀ d2, parse_date10 r2.expiration = some d2 → e < d2 → d ≤ d2)) ∧
    |r.strike - p| / p * 100 ≤ pct ∧
    (∀ m, miv = some m → m ≤ normalize_iv_screen r.implied_volatility) ∧
    (∀ t, ot = some t → r.option_type = t) := by
  unfold screen_options_before_earnings at hr
  by_cases hc : chain = []
  · rw [if_pos hc] at hr
    exact absurd hr (List.not_mem_nil r)
  rw [if_neg hc] at hr
  set afterE := chain.filter (post_earnings_filter e) with hafterE
  have hall : ∀ x ∈ afterE, ∃ d, parse_date10 x.expiration = some d ∧ e < d := by
    intro x hx
    have hpost := (List.mem_filter.mp hx).2
    unfold post_earnings_filter at hpost
    cases hpp : parse_date10 x.expiration with
    | none => rw [hpp] at hpost; exact absurd hpost (by simp)
    | some d =>
      rw [hpp] at hpost
      exact ⟨d, rfl, of_decide_eq_true hpost⟩
  unfold screen_after_expiration at hr
  simp only [] at hr
  rcases hm : minDate (List.filterMap (fun x : ChainRow => parse_date10 x.expiration) afterE)
    with _ | fe
  · rw [hm] at hr
    have hnil : afterE = [] := by
      cases hae : afterE with
      | nil => rfl
      | cons x xs =>
        rcases hall x (by rw [hae]; exact List.mem_cons_self x xs) with ⟨d, hd, _⟩
        have hnone : minDate (List.filterMap (fun x : ChainRow => parse_date10 x.expiration)
            (x :: xs)) = none := by rw [← hae]; exact hm
        rw [List.filterMap_cons, hd] at hnone
        rw [minDate_eq_none] at hnone
        exact absurd hnone (by simp)
    rw [hnil] at hr
    rw [if_pos rfl] at hr
    exact absurd hr (List.not_mem_nil r)
  · rw [hm] at hr
    by_cases h1 : afterE.filter (fun x => parse_date10 x.expiration = some fe) = []
    · rw [if_pos h1] at hr
      exact absurd hr (List.not_mem_nil r)
    rw [if_neg h1] at hr
    by_cases h2 : (afterE.filter (fun x => parse_date10 x.expiration = some fe)).filter
        (fun x => |x.strike - p| / p * 100 ≤ pct) = []
    · rw [if_pos h2] at hr
      exact absurd hr (List.not_mem_nil r)
    rw [if_neg h2] at hr
    have hfin : r ∈ (afterE.filter (fun x => parse_date10 x.expiration = some fe)).filter
        (fun x => |x.strike - p| / p * 100 ≤ pct) ∧
        (∀ m, miv = some m → m ≤ normalize_iv_screen r.implied_volatility) ∧
        (∀ t, ot = some t → r.option_type = t) := by
      rcases miv with _ | m <;> rcases ot with _ | t
      · refine ⟨hr, ?_, ?_⟩
        · intro m hmm
          cases hmm
        · intro t htt
          cases htt
      · replace hr : r ∈ ((afterE.filter
            (fun x => parse_date10 x.expiration = some fe)).filter
            (fun x => |x.strike - p| / p * 100 ≤ pct)).filter
            (fun x => x.option_type = t) := hr
        have hsp := List.mem_filter.mp hr
        refine ⟨hsp.1, ?_, ?_⟩
        · intro m hmm
          cases hmm
        · intro t2 htt
          cases htt
          exact of_decide_eq_true hsp.2
      · replace hr : r ∈ ((afterE.filter
            (fun x => parse_date10 x.expiration = some fe)).filter
            (fun x => |x.strike - p| / p * 100 ≤ pct)).filter
            (fun x => m ≤ normalize_iv_screen x.implied_volatility) := hr
        have hsp := List.mem_filter.mp hr
        refine ⟨hsp.1, ?_, ?_⟩
        · intro m2 hmm
          cases hmm
          exact of_decide_eq_true hsp.2
        · intro t htt
          cases htt
      · replace hr : r ∈ (((afterE.filter
            (fun x => parse_date10 x.expiration = some fe)).filter
            (fun x => |x.strike - p| / p * 100 ≤ pct)).filter
            (fun x => m ≤ normalize_iv_screen x.implied_volatility)).filter
            (fun x => x.option_type = t) := hr
        have hot := List.mem_filter.mp hr
        have hsp := List.mem_filter.mp hot.1
        refine ⟨hsp.1, ?_, ?_⟩
        · intro m2 hmm
          cases hmm
          exact of_decide_eq_true hsp.2
        · intro t2 htt
          cases htt
          exact of_decide_eq_true hot.2
    have hstrike := List.mem_filter.mp hfin.1
    have hdf1 := List.mem_filter.mp hstrike.1
    have hmemA : r ∈ afterE := hdf1.1
    have hparse : parse_date10 r.expiration = some fe := of_decide_eq_true hdf1.2
    rcases hall r hmemA with ⟨d0, hd0, hed0⟩
    have hdfe : d0 = fe := by rw [hd0] at hparse; exact Option.some.inj hparse
    subst hdfe
    refine ⟨(List.mem_filter.mp hmemA).1, ⟨d0, hd0, hed0, ?_⟩,
      of_decide_eq_true hstrike.2, hfin.2.1, hfin.2.2⟩
    intro r2 hr2 d2 hp2 hed2
    have hpost2 : post_earnings_filter e r2 = true := by
      unfold post_earnings_filter
      rw [hp2]
      exact decide_eq_true hed2
    have hmem2 : r2 ∈ afterE := List.mem_filter.mpr ⟨hr2, hpost2⟩
    have hd2mem : d2 ∈ List.filterMap (fun x : ChainRow => parse_date10 x.expiration)
        afterE := List.mem_filterMap.mpr ⟨r2, hmem2, hp2⟩
    exact minDate_le _ d0 hm d2 hd2mem

theorem screen_empty_of_no_post (chain : List ChainRow) (e : ℤ) (p : ℚ)
    (miv : Option ℚ) (pct : ℚ) (ot : Option OType)
    (hno : ∀ r ∈ chain, ∀ d, parse_date10 r.expiration = some d → ¬ e < d) :
    screen_options_before_earnings chain e p miv pct ot = [] := by
  unfold screen_options_before_earnings
  by_cases hc : chain = []
  · rw [if_pos hc]
  · rw [if_neg hc]
    have h0 : chain.filter (post_earnings_filter e) = [] := by
      rw [List.filter_eq_nil_iff]
      intro r hrm hcon
      unfold post_earnings_filter at hcon
      cases hpp : parse_date10 r.expiration with
      | none => rw [hpp] at hcon; simp at hcon
      | some d => rw [hpp] at hcon; exact hno r hrm d hpp (of_decide_eq_true hcon)
    rw [h0]
    exact screen_after_nil p miv pct ot

/-- C2 (confirmed): every row returned by `screen_options_before_earnings`
is a row of the input chain (the output is even a sublist — no synthesized
rows), and each returned row simultaneously satisfies all requested
filters: its expiration parses to the earliest date strictly after
`earnings_date` among the chain's parseable expirations, its strike is
within `max_strike_distance_pct` percent of the underlying price, its
normalized IV meets `min_iv` when given, and its option type matches when
requested; when no expiration lies strictly after `earnings_date` the
result is empty. -/
theorem C2_screen_roundtrip (chain : List ChainRow) (e : ℤ) (p : ℚ)
    (miv : Option ℚ) (pct : ℚ) (ot : Option OType) :
    (screen_options_before_earnings chain e p miv pct ot).Sublist chain ∧
    (∀ r ∈ screen_options_before_earnings chain e p miv pct ot,
      r ∈ chain ∧
      (∃ d, parse_date10 r.expiration = some d ∧ e < d ∧
        (∀ r2 ∈ chain, ∀ d2, parse_date10 r2.expiration = some d2 → e < d2 → d ≤ d2)) ∧
      |r.strike - p| / p * 100 ≤ pct ∧
      (∀ m, miv = some m → m ≤ normalize_iv_screen r.implied_volatility) ∧
      (∀ t, ot = some t → r.option_type = t)) ∧
    ((∀ r ∈ chain, ∀ d, parse_date10 r.expiration = some d → ¬ e < d) →
      screen_options_before_earnings chain e p miv pct ot = []) := by
  refine ⟨?_, ?_, screen_empty_of_no_post chain e p miv pct ot⟩
  · unfold screen_options_before_earnings
    split
    · exact List.nil_sublist chain
    · exact (screen_after_sublist _ p miv pct ot).trans (List.filter_sublist chain)
  · intro r hr
    exact screen_mem_characterization chain e p miv pct ot r hr

/-- C2 witness: the round-trip theorem applied to a concrete two-row chain
whose screening keeps exactly the near-ATM post-earnings call, and to a
chain with no post-earnings expiration, which screens to empty. -/
theorem C2_witness :
    (ChainRow.mk 100 "2024-02-02" OType.call (1/2) none
        ∈ [ChainRow.mk 100 "2024-02-02" OType.call (1/2) none,
           ChainRow.mk 150 "2024-02-02" OType.put (1/2) none] ∧
      (∃ d, parse_date10 (ChainRow.mk 100 "2024-02-02" OType.call (1/2) none).expiration
          = some d ∧ toDayNumber 2024 2 1 < d ∧
        (∀ r2 ∈ [ChainRow.mk 100 "2024-02-02" OType.call (1/2) none,
            ChainRow.mk 150 "2024-02-02" OType.put (1/2) none], ∀ d2,
          parse_date10 r2.expiration = some d2 → toDayNumber 2024 2 1 < d2 → d ≤ d2)) ∧
      |(ChainRow.mk 100 "2024-02-02" OType.call (1/2) none).strike - 100| / 100 * 100 ≤ 10 ∧
      (∀ m, (some (3/10) : Option ℚ) = some m →
        m ≤ normalize_iv_screen
          (ChainRow.mk 100 "2024-02-02" OType.call (1/2) none).implied_volatility) ∧
      (∀ t, (some OType.call : Option OType) = some t →
        (ChainRow.mk 100 "2024-02-02" OType.call (1/2) none).option_type = t)) ∧
    screen_options_before_earnings [ChainRow.mk 100 "2024-01-19" OType.call 1 none]
      (toDayNumber 2024 2 1) 100 none 10 none = [] := by
  have hout : screen_options_before_earnings
      [ChainRow.mk 100 "2024-02-02" OType.call (1/2) none,
       ChainRow.mk 150 "2024-02-02" OType.put (1/2) none]
      (toDayNumber 2024 2 1) 100 (some (3/10)) 10 (some OType.call)
      = [ChainRow.mk 100 "2024-02-02" OType.call (1/2) none] := by
    have hp1 : parse_date10 "2024-02-02" = some (toDayNumber 2024 2 2) := by decide
    have hlt : toDayNumber 2024 2 1 < toDayNumber 2024 2 2 := by decide
    unfold screen_options_before_earnings
    rw [if_neg (by simp)]
    have hfil : ([ChainRow.mk 100 "2024-02-02" OType.call (1/2) none,
        ChainRow.mk 150 "2024-02-02" OType.put (1/2) none].filter
        (post_earnings_filter (toDayNumber 2024 2 1)))
        = [ChainRow.mk 100 "2024-02-02" OType.call (1/2) none,
           ChainRow.mk 150 "2024-02-02" OType.put (1/2) none] := by
      simp only [List.filter_cons, List.filter_nil, post_earnings_filter, hp1]
      simp [hlt]
    rw [hfil]
    unfold screen_after_expiration
    simp only [List.filterMap_cons, List.filterMap_nil, hp1, minDate, List.foldl_cons,
      List.foldl_nil]
    simp only [min_self]
    simp only [List.filter_cons, List.filter_nil, hp1]
    norm_num [normalize_iv_screen]
    all_goals simp
  constructor
  · refine (C2_screen_roundtrip
      [ChainRow.mk 100 "2024-02-02" OType.call (1/2) none,
       ChainRow.mk 150 "2024-02-02" OType.put (1/2) none]
      (toDayNumber 2024 2 1) 100 (some (3/10)) 10 (some OType.call)).2.1
      (ChainRow.mk 100 "2024-02-02" OType.call (1/2) none) ?_
    rw [hout]
    exact List.mem_cons_self _ _
  · refine (C2_screen_roundtrip [ChainRow.mk 100 "2024-01-19" OType.call 1 none]
      (toDayNumber 2024 2 1) 100 none 10 none).2.2 ?_
    intro r hr d hd hlt2
    rcases List.mem_cons.mp hr with rfl | habs
    · have : d = toDayNumber 2024 1 19 := by
        have hp : parse_date10 "2024-01-19" = some (toDayNumber 2024 1 19) := by decide
        rw [hp] at hd
        exact (Option.some.inj hd).symm
      subst this
      exact absurd hlt2 (by decide)
    · exact absurd habs (List.not_mem_nil r)

/-! ## Claim C9 -- clinical-trials adapter transform step -/

/-- C9 counterexample: the claim says absent `primary_completion_date`
records sort last, but the sort key substitutes `date.max` (9999-12-31)
for absent dates, so a record dated exactly 9999-12-31 ties with an
absent-date record and the stable sort leaves the absent one first. -/
theorem C9_counterexample :
    transform_data none none
        [RawStudy.mk (some "A") none, RawStudy.mk (some "B") (some "9999-12-31")]
      = Except.ok [TrialRecord.mk (some "A") none,
          TrialRecord.mk (some "B") (some pyDateMax)] ∧
    ¬ ((okRows (transform_data none none
        [RawStudy.mk (some "A") none,
         RawStudy.mk (some "B") (some "9999-12-31")])).Pairwise
        (fun a b => a.primary_completion_date = none →
          b.primary_completion_date = none)) := by
  have hval : transform_data none none
      [RawStudy.mk (some "A") none, RawStudy.mk (some "B") (some "9999-12-31")]
      = Except.ok [TrialRecord.mk (some "A") none,
          TrialRecord.mk (some "B") (some pyDateMax)] := by decide
  refine ⟨hval, ?_⟩
  intro hpair
  have hrows : okRows (transform_data none none
      [RawStudy.mk (some "A") none, RawStudy.mk (some "B") (some "9999-12-31")])
      = [TrialRecord.mk (some "A") none, TrialRecord.mk (some "B") (some pyDateMax)] := by
    rw [hval]
    rfl
  rw [hrows] at hpair
  have h := (List.pairwise_cons.mp hpair).1
    (TrialRecord.mk (some "B") (some pyDateMax)) (by simp)
  have h2 := h rfl
  simp at h2

/-- C9 (amended): the transform step raises a distinguishable "no data"
error when the registry data or the filtered result is empty (never a
silent empty success); a returned list is a permutation of the kept
records, where a record is kept exactly when its derived
`primary_completion_date` does not fall outside the supplied
`start_date`/`end_date` bounds (boundaries inclusive; no exclusion when a
bound or the date is absent); and the returned list is stable-sorted
ascending by `primary_completion_date` with the sentinel `date.max`
substituted for absent dates — so absent dates sort after every record
dated before 9999-12-31, while a record dated exactly 9999-12-31 ties
with them and keeps its input position. -/
theorem C9_transform_data (sd ed : Option ℤ) (data : List RawStudy) (l : List TrialRecord) :
    (data = [] → transform_data sd ed data
      = Except.error "No clinical trials found for the given query.") ∧
    (data ≠ [] →
      data.filterMap (fun s =>
        if trial_keep sd ed (derive_pcd s) then some (TrialRecord.mk s.nct_id (derive_pcd s))
        else none) = [] →
      transform_data sd ed data
        = Except.error "No clinical trials found matching the date criteria.") ∧
    (transform_data sd ed data = Except.ok l →
      l ≠ [] ∧
      l.Perm (data.filterMap (fun s =>
        if trial_keep sd ed (derive_pcd s) then some (TrialRecord.mk s.nct_id (derive_pcd s))
        else none)) ∧
      l.Pairwise (fun a b => (a.primary_completion_date).getD pyDateMax
        ≤ (b.primary_completion_date).getD pyDateMax)) ∧
    (∀ pd : Option ℤ, trial_keep sd ed pd = true ↔
      ((∀ sd0, sd = some sd0 → ∀ q, pd = some q → sd0 ≤ q) ∧
       (∀ ed0, ed = some ed0 → ∀ q, pd = some q → q ≤ ed0))) := by
  refine ⟨?_, ?_, ?_, ?_⟩
  · intro h
    subst h
    rfl
  · intro hne hemp
    unfold transform_data
    rw [if_neg hne]
    simp only []
    rw [if_pos hemp]
  · intro hok
    unfold transform_data at hok
    simp only [] at hok
    split at hok
    · cases hok
    · split at hok
      · cases hok
      · rename_i hres
        have hl := (Except.ok.inj hok).symm
        subst hl
        refine ⟨?_, stableSort_perm (fun a b : TrialRecord =>
          decide ((a.primary_completion_date).getD pyDateMax
            ≤ (b.primary_completion_date).getD pyDateMax))
          (data.filterMap (fun s =>
            if trial_keep sd ed (derive_pcd s) then
              some (TrialRecord.mk s.nct_id (derive_pcd s))
            else none)), ?_⟩
        · intro hnil
          have hp2 := stableSort_perm (fun a b : TrialRecord =>
            decide ((a.primary_completion_date).getD pyDateMax
              ≤ (b.primary_completion_date).getD pyDateMax))
            (data.filterMap (fun s =>
              if trial_keep sd ed (derive_pcd s) then
                some (TrialRecord.mk s.nct_id (derive_pcd s))
              else none))
          rw [hnil] at hp2
          exact hres (List.perm_nil.mp hp2.symm)
        · have hp := pairwise_stableSort (fun a b : TrialRecord =>
            decide ((a.primary_completion_date).getD pyDateMax
              ≤ (b.primary_completion_date).getD pyDateMax))
            (by intro x y z hxy hyz; simp only [decide_eq_true_eq] at *; omega)
            (by intro x y
                rcases le_total ((x.primary_completion_date).getD pyDateMax)
                  ((y.primary_completion_date).getD pyDateMax) with h | h
                · left; simp [h]
                · right; simp [h])
            (data.filterMap (fun s =>
              if trial_keep sd ed (derive_pcd s) then
                some (TrialRecord.mk s.nct_id (derive_pcd s))
              else none))
          exact hp.imp (by intro a b h; simpa using h)
  · intro pd
    unfold trial_keep
    rcases sd with _ | sd0 <;> rcases ed with _ | ed0 <;> rcases pd with _ | q <;>
      simp <;> omega

/-- C9 witness: the theorem applied at concrete inputs — empty registry
data errors, a window excluding the only record errors, a successful
transform returns a nonempty list, and the keep test at concrete bounds. -/
theorem C9_witness :
    transform_data (some 5) none [] = Except.error
      "No clinical trials found for the given query." ∧
    transform_data (some (toDayNumber 2021 1 1)) none
        [RawStudy.mk (some "B") (some "2020-01-01")]
      = Except.error "No clinical trials found matching the date criteria." ∧
    [TrialRecord.mk (some "B") (some (toDayNumber 2024 6 1))] ≠ [] ∧
    (trial_keep (some 3) (some 7) (some 5) = true ↔
      ((∀ sd0, (some 3 : Option ℤ) = some sd0 → ∀ q, (some 5 : Option ℤ) = some q → sd0 ≤ q) ∧
       (∀ ed0, (some 7 : Option ℤ) = some ed0 → ∀ q, (some 5 : Option ℤ) = some q → q ≤ ed0))) := by
  have hok : transform_data none none [RawStudy.mk (some "B") (some "2024-06-01")]
      = Except.ok [TrialRecord.mk (some "B") (some (toDayNumber 2024 6 1))] := by decide
  exact ⟨(C9_transform_data (some 5) none [] []).1 rfl,
    (C9_transform_data (some (toDayNumber 2021 1 1)) none
      [RawStudy.mk (some "B") (some "2020-01-01")] []).2.1 (by simp) (by decide),
    ((C9_transform_data none none [RawStudy.mk (some "B") (some "2024-06-01")]
      [TrialRecord.mk (some "B") (some (toDayNumber 2024 6 1))]).2.2.1 hok).1,
    (C9_transform_data (some 3) (some 7) [] []).2.2.2 (some 5)⟩

/-! ## Claim C10 -- catalyst_screen scores with constant iv_rank 50 -/

theorem time_alignment_le_100 (dtc dte : ℤ) : time_alignment dtc dte ≤ 100 := by
  unfold time_alignment
  simp only []
  split_ifs <;> omega

theorem move_score_le_100 {α : Type} [LinearOrderedField α] [FloorRing α] (x : α) :
    move_score x ≤ 100 := by
  unfold move_score
  split_ifs <;> norm_num

theorem score50_bound (em : ℝ) (dtc dte : ℤ) :
    (score_catalyst_play em (50:ℝ) dtc dte).composite_score ≤ 80 ∧
    (score_catalyst_play em (50:ℝ) dtc dte).recommendation
      ≠ "Strong sell premium candidate (high IV, good timing)" ∧
    (score_catalyst_play em (50:ℝ) dtc dte).recommendation
      ≠ "Strong buy premium candidate (low IV, good timing)" := by
  have hc : composite_raw em (50:ℝ) dtc dte ≤ 80 := by
    unfold composite_raw
    have ht : ((time_alignment dtc dte : ℤ) : ℝ) ≤ 100 := by
      exact_mod_cast time_alignment_le_100 dtc dte
    have hm : ((move_score em : ℤ) : ℝ) ≤ 100 := by
      exact_mod_cast move_score_le_100 em
    nlinarith
  refine ⟨?_, ?_, ?_⟩
  · show pyRound1 (composite_raw em (50:ℝ) dtc dte) ≤ 80
    unfold pyRound1
    have h8 : composite_raw em (50:ℝ) dtc dte * 10 ≤ ((800 : ℤ) : ℝ) := by
      push_cast
      linarith
    have := pyRound_le (composite_raw em (50:ℝ) dtc dte * 10) 800 h8
    have hcast : ((pyRound (composite_raw em (50:ℝ) dtc dte * 10) : ℤ) : ℝ) ≤ 800 := by
      exact_mod_cast this
    linarith
  · show get_recommendation (composite_raw em (50:ℝ) dtc dte) 50 ≠ _
    unfold get_recommendation
    rw [if_neg (by intro h; exact absurd h.2 (by norm_num))]
    rw [if_neg (by intro h; exact absurd h.2 (by norm_num))]
    split_ifs <;> decide
  · show get_recommendation (composite_raw em (50:ℝ) dtc dte) 50 ≠ _
    unfold get_recommendation
    rw [if_neg (by intro h; exact absurd h.2 (by norm_num))]
    rw [if_neg (by intro h; exact absurd h.2 (by norm_num))]
    split_ifs <;> decide

/-- C10 (confirmed): with `include_scoring` true, `catalyst_screen` scores
every returned row with the constant `iv_rank = 50.0`, so each row's
composite `catalyst_score` is at most 80.0 and its recommendation is
never one of the two "strong" variants. -/
theorem C10_catalyst_screen_scoring (today : ℤ) (data : List ChainRow) (cd : String)
    (up miv : Option ℚ) (pct : ℚ) (ot : Option OType) :
    (okRows (catalyst_screen today data cd up miv pct ot true)).Forall
      (fun rec => ∃ s r, rec.scoring = some (s, r) ∧ s ≤ 80 ∧
        r ≠ "Strong sell premium candidate (high IV, good timing)" ∧
        r ≠ "Strong buy premium candidate (low IV, good timing)") := by
  unfold catalyst_screen
  by_cases h0 : data = []
  · rw [if_pos h0]
    simp [okRows]
  rw [if_neg h0]
  rcases hp : parse_date_strict cd with _ | cdt
  · simp [okRows, hp]
  simp only [hp]
  rcases hlp : (match up with
      | some p => some p
      | none => (data.head?).bind (fun r => r.underlying_price) : Option ℚ) with _ | price
  · simp [okRows, hlp]
  simp only [hlp]
  by_cases hscr : screen_options_before_earnings data cdt price miv pct ot = []
  · rw [if_pos hscr]
    simp [okRows]
  rw [if_neg hscr, if_pos trivial]
  rw [List.forall_iff_forall_mem]
  intro rec hrec
  simp only [okRows] at hrec
  rcases List.mem_map.mp hrec with ⟨r, hr, hfr⟩
  subst hfr
  simp only []
  refine ⟨_, _, rfl, ?_⟩
  have := score50_bound
    (if r.implied_volatility = 0 then 5
     else ((if 10 < r.implied_volatility then r.implied_volatility / 100
        else r.implied_volatility : ℚ) : ℝ)
        * Real.sqrt ((Int.cast (match parse_date10 r.expiration with
            | some e => e - today
            | none => 30) : ℝ) / 365) * 100)
    (cdt - today)
    (match parse_date10 r.expiration with
      | some e => e - today
      | none => 30)
  exact this

/-! ## Claim C5 -- strict boundary validation -/

/-- C5 (confirmed): the boundary entry points stop with explicit errors:
`catalyst_screen` errors when no data is supplied, when `catalyst_date`
fails the strict `%Y-%m-%d` parse, and when the underlying price is
neither passed nor present in the data; `surface` errors when no data is
supplied, when OTM/ITM filtering is requested without a resolvable
underlying price (the same resolution failure stops every option type),
and when the target column is absent. -/
theorem C5_boundary_validation (today : ℤ) (data : List ChainRow) (cd : String)
    (up miv : Option ℚ) (pct : ℚ) (ot : Option OType) (sc : Bool)
    (cols : List String) (target : String) (sup : Option ℚ)
    (sot : Option SurfaceType) (q : ℚ) (dcat : ℤ) :
    (data = [] → catalyst_screen today data cd up miv pct ot sc
      = Except.error "No data to process!") ∧
    (data ≠ [] → parse_date_strict cd = none →
      catalyst_screen today data cd up miv pct ot sc
        = Except.error "Invalid date format. Use YYYY-MM-DD:") ∧
    (data ≠ [] → parse_date_strict cd = some dcat → up = none →
      (data.head?).bind (fun r => r.underlying_price) = none →
      catalyst_screen today data cd up miv pct ot sc = Except.error
        "underlying_price must be provided or present in the data.") ∧
    (data = [] → surface_validate data cols target sup sot
      = Except.error "No data to process!") ∧
    (data ≠ [] → sup = none →
      (data.head?).bind (fun r => r.underlying_price) = none →
      (sot = some SurfaceType.otm ∨ sot = some SurfaceType.itm) →
      surface_validate data cols target sup sot = Except.error
        "Last price must be provided for options filtering, and was not found in the data.") ∧
    (data ≠ [] → sup = some q → q ≠ 0 → target ∉ cols →
      surface_validate data cols target sup sot
        = Except.error ("Error: No " ++ target ++ " field found.")) := by
  refine ⟨?_, ?_, ?_, ?_, ?_, ?_⟩
  · intro h
    unfold catalyst_screen
    rw [if_pos h]
  · intro hne hparse
    unfold catalyst_screen
    rw [if_neg hne]
    simp only [hparse]
  · intro hne hparse hup hhead
    unfold catalyst_screen
    rw [if_neg hne]
    simp only [hparse, hup, hhead]
  · intro h
    unfold surface_validate
    rw [if_pos h]
  · intro hne hsup hhead hot
    unfold surface_validate
    rw [if_neg hne]
    simp only [hsup, hhead]
  · intro hne hsup hq hcols
    unfold surface_validate
    rw [if_neg hne]
    simp only [hsup]
    rw [if_neg hq]
    simp only []
    rw [if_pos hcols]

/-- C5 witness: the theorem applied at concrete inputs for each of the six
error conditions. -/
theorem C5_witness :
    catalyst_screen 7 [] "2024-01-01" none none 10 none true
      = Except.error "No data to process!" ∧
    catalyst_screen 7 [ChainRow.mk 100 "2024-02-02" OType.call 1 none] "bad-date"
        none none 10 none true
      = Except.error "Invalid date format. Use YYYY-MM-DD:" ∧
    catalyst_screen 7 [ChainRow.mk 100 "2024-02-02" OType.call 1 none] "2024-02-01"
        none none 10 none true
      = Except.error "underlying_price must be provided or present in the data." ∧
    surface_validate [] ["strike"] "implied_volatility" none (some SurfaceType.otm)
      = Except.error "No data to process!" ∧
    surface_validate [ChainRow.mk 100 "2024-02-02" OType.call 1 none] ["strike"]
        "implied_volatility" none (some SurfaceType.otm)
      = Except.error
        "Last price must be provided for options filtering, and was not found in the data." ∧
    surface_validate [ChainRow.mk 100 "2024-02-02" OType.call 1 (some 100)] ["strike"]
        "implied_volatility" (some 5) none
      = Except.error ("Error: No " ++ "implied_volatility" ++ " field found.") :=
  ⟨(C5_boundary_validation 7 [] "2024-01-01" none none 10 none true ["strike"]
      "implied_volatility" none (some SurfaceType.otm) 5 0).1 rfl,
   (C5_boundary_validation 7 [ChainRow.mk 100 "2024-02-02" OType.call 1 none] "bad-date"
      none none 10 none true ["strike"] "implied_volatility" none (some SurfaceType.otm)
      5 0).2.1 (by simp) (by decide),
   (C5_boundary_validation 7 [ChainRow.mk 100 "2024-02-02" OType.call 1 none] "2024-02-01"
      none none 10 none true ["strike"] "implied_volatility" none (some SurfaceType.otm)
      5 (toDayNumber 2024 2 1)).2.2.1 (by simp) (by decide) rfl rfl,
   (C5_boundary_validation 7 [] "2024-01-01" none none 10 none true ["strike"]
      "implied_volatility" none (some SurfaceType.otm) 5 0).2.2.2.1 rfl,
   (C5_boundary_validation 7 [ChainRow.mk 100 "2024-02-02" OType.call 1 none] "2024-02-01"
      none none 10 none true ["strike"] "implied_volatility" none (some SurfaceType.otm)
      5 0).2.2.2.2.1 (by simp) rfl rfl (Or.inl rfl),
   (C5_boundary_validation 7 [ChainRow.mk 100 "2024-02-02" OType.call 1 (some 100)]
      "2024-02-01" none none 10 none true ["strike"] "implied_volatility" (some 5) none
      5 0).2.2.2.2.2 (by simp) rfl (by norm_num) (by decide)⟩
